import Mathlib

/-!
Verification of the polybrain-mcp repository's conversation store,
truncation policy, process supervisor and tool-dispatch logic, shallowly
embedded in Lean from the TypeScript source
(`conversation-manager.ts`, `launcher.ts`, `mcp-tools.ts`,
`http-server.ts`, `bin` entrypoint).
-/

set_option maxRecDepth 4096

/-- Message role, from `types.ts`: role ∈ {user, assistant}. -/
inductive Role where
  | user
  | assistant
deriving DecidableEq, Repr

/-- A chat message, from `types.ts` (`ChatMessage`): role + content. -/
structure ChatMessage where
  role : Role
  content : String
deriving DecidableEq, Repr

/-- Conversation state, from `types.ts` (`ConversationState`).
Identifiers are modelled as natural numbers: the source draws them from
`randomUUID()`, whose only property used by the code is freshness, which the
embedding realises with a counter (`nextId` below). -/
structure ConversationState where
  id : Nat
  modelId : String
  messages : List ChatMessage
  createdAt : Nat
  updatedAt : Nat
deriving DecidableEq, Repr

/-- The conversation store of `ConversationManager`: an association list
standing for the JS `Map` (lookup finds the unique entry with the key;
keys are only ever inserted fresh), the configured truncation limit, and
the counter supplying fresh identifiers. -/
structure ConversationManager where
  conversations : List (Nat × ConversationState)
  truncateLimit : Nat
  nextId : Nat
deriving DecidableEq, Repr

/-- Lookup in the store, standing for `this.conversations.get(id)`. -/
def lookupConv : List (Nat × ConversationState) → Nat → Option ConversationState
  | [], _ => none
  | p :: rest, id => if p.1 = id then some p.2 else lookupConv rest id

/-- In-place mutation of the entry with key `id`, standing for the JS
pattern of mutating the object retrieved from the `Map`. -/
def updateConv (l : List (Nat × ConversationState)) (id : Nat)
    (f : ConversationState → ConversationState) : List (Nat × ConversationState) :=
  l.map (fun p => if p.1 = id then (p.1, f p.2) else p)

/-- Store well-formedness: every key already allocated is below the fresh
counter (true of every state reachable from an empty manager). -/
def ConversationManager.wf (m : ConversationManager) : Bool :=
  m.conversations.all (fun p => decide (p.1 < m.nextId))

/-- The fixed sentinel message inserted by `truncateMessages`
(`conversation-manager.ts` line 271–274). -/
def truncationMarker : ChatMessage :=
  { role := Role.assistant
    content := "[... conversation history truncated to save context ...]" }

/-- JavaScript `messages.slice(-kept)`: for `kept = 0` this is `slice(0)`,
i.e. the whole array; for `kept > 0` it is the last `kept` elements
(clamped to the whole array when `kept` exceeds the length, as JS does). -/
def jsSliceLast (l : List ChatMessage) (kept : Nat) : List ChatMessage :=
  if kept = 0 then l else l.drop (l.length - kept)

/-- `ConversationManager.truncateMessages` (`conversation-manager.ts`
lines 261–277), translated clause by clause. -/
def truncateMessages (truncateLimit : Nat) (messages : List ChatMessage) : List ChatMessage :=
  if messages.length ≤ truncateLimit then
    messages
  else
    let kept := truncateLimit / 2
    let firstPart := messages.take kept
    let lastPart := jsSliceLast messages kept
    firstPart ++ truncationMarker :: lastPart

/-- `createConversation` (`conversation-manager.ts` lines 165–179):
allocate a fresh id, insert an empty conversation bound to `modelId`,
return the id.  `now` stands for `Date.now()`. -/
def ConversationManager.createConversation (m : ConversationManager) (modelId : String)
    (now : Nat) : Nat × ConversationManager :=
  let conversationId := m.nextId
  let conversation : ConversationState :=
    { id := conversationId, modelId := modelId, messages := [],
      createdAt := now, updatedAt := now }
  (conversationId,
    { m with conversations := (conversationId, conversation) :: m.conversations,
             nextId := m.nextId + 1 })

/-- `getConversation` (`conversation-manager.ts` lines 184–186): pure
lookup, `null` becomes `none`. -/
def ConversationManager.getConversation (m : ConversationManager) (conversationId : Nat) :
    Option ConversationState :=
  lookupConv m.conversations conversationId

/-- The errors thrown by `ConversationManager`, one constructor per
distinct `throw new Error(...)` site. -/
inductive ConvError where
  | notFound (conversationId : Nat)
  | sourceNotFound (conversationId : Nat)
  | cloneFailed
deriving DecidableEq, Repr

/-- Classifies the spec's `NotFound` error class: both "Conversation not
found" and "Source conversation not found" messages report an unknown id. -/
def ConvError.isNotFound : ConvError → Bool
  | .notFound _ => true
  | .sourceNotFound _ => true
  | .cloneFailed => false

/-- `addMessage` (`conversation-manager.ts` lines 191–205): throws
NotFound for an unknown id, otherwise pushes the message and advances
`updatedAt`. -/
def ConversationManager.addMessage (m : ConversationManager) (conversationId : Nat)
    (role : Role) (content : String) (now : Nat) : Except ConvError ConversationManager :=
  match lookupConv m.conversations conversationId with
  | none => .error (.notFound conversationId)
  | some _ =>
    .ok { m with
          conversations :=
            updateConv m.conversations conversationId
              (fun c =>
                { c with messages := c.messages ++ [⟨role, content⟩], updatedAt := now }) }

/-- `getHistory` (`conversation-manager.ts` lines 210–217): throws
NotFound for an unknown id, otherwise returns the truncated view of the
stored messages. -/
def ConversationManager.getHistory (m : ConversationManager) (conversationId : Nat) :
    Except ConvError (List ChatMessage) :=
  match lookupConv m.conversations conversationId with
  | none => .error (.notFound conversationId)
  | some c => .ok (truncateMessages m.truncateLimit c.messages)

/-- `cloneConversation` (`conversation-manager.ts` lines 222–248): look up
the source, create a fresh conversation bound to `newModelId`, re-fetch it
(the `cloneFailed` branch mirrors the "Failed to create cloned
conversation" throw), then overwrite its messages with a value-copy
(`source.messages.map((msg) => ({...msg}))`) of the source's messages. -/
def ConversationManager.cloneConversation (m : ConversationManager)
    (sourceConversationId : Nat) (newModelId : String) (now : Nat) :
    Except ConvError (Nat × ConversationManager) :=
  match lookupConv m.conversations sourceConversationId with
  | none => .error (.sourceNotFound sourceConversationId)
  | some source =>
    let r := m.createConversation newModelId now
    match lookupConv r.2.conversations r.1 with
    | none => .error .cloneFailed
    | some _ =>
      .ok (r.1,
        { r.2 with
          conversations :=
            updateConv r.2.conversations r.1
              (fun c =>
                { c with messages := source.messages.map (fun msg => msg),
                         updatedAt := now }) })

-- ### Basic lemmas about the store

theorem lookupConv_updateConv (l : List (Nat × ConversationState)) (t : Nat)
    (f : ConversationState → ConversationState) (id : Nat) :
    lookupConv (updateConv l t f) id =
      if id = t then (lookupConv l id).map f else lookupConv l id := by
  induction l with
  | nil => simp [lookupConv, updateConv]
  | cons p rest ih =>
    simp only [updateConv] at ih
    by_cases hpt : p.1 = t <;> by_cases hpid : p.1 = id
    · have hidt : id = t := hpid.symm.trans hpt
      simp [lookupConv, updateConv, hpt, hpid, hidt]
    · have hidt : ¬ id = t := fun h => hpid (hpt.trans h.symm)
      have htid : ¬ t = id := fun h => hidt h.symm
      simp [lookupConv, updateConv, hpt, hpid, hidt, htid, ih]
    · have hidt : ¬ id = t := fun h => hpt (hpid.trans h)
      simp [lookupConv, updateConv, hpt, hpid, hidt]
    · simp [lookupConv, updateConv, hpt, hpid, ih]

theorem lookupConv_lt_of_all_lt (l : List (Nat × ConversationState)) (n k : Nat)
    (c : ConversationState) (hall : l.all (fun p => decide (p.1 < n)) = true)
    (hlk : lookupConv l k = some c) : k < n := by
  induction l with
  | nil => simp [lookupConv] at hlk
  | cons p rest ih =>
    simp only [List.all_cons, Bool.and_eq_true, decide_eq_true_eq] at hall
    by_cases hpk : p.1 = k
    · exact hpk ▸ hall.1
    · simp [lookupConv, hpk] at hlk
      exact ih hall.2 hlk

theorem lookupConv_none_of_all_lt (l : List (Nat × ConversationState)) (n : Nat)
    (hall : l.all (fun p => decide (p.1 < n)) = true) : lookupConv l n = none := by
  cases hc : lookupConv l n with
  | none => rfl
  | some c => exact absurd (lookupConv_lt_of_all_lt l n n c hall hc) (Nat.lt_irrefl n)

theorem updateConv_eq_of_not_mem (l : List (Nat × ConversationState)) (t : Nat)
    (f : ConversationState → ConversationState)
    (h : ∀ p ∈ l, p.1 ≠ t) : updateConv l t f = l := by
  induction l with
  | nil => rfl
  | cons p rest ih =>
    simp only [updateConv, List.map_cons]
    rw [if_neg (h p (List.mem_cons_self p rest))]
    have := ih (fun q hq => h q (List.mem_cons_of_mem p hq))
    simp only [updateConv] at this
    rw [this]

-- ### Lemmas about truncation

theorem truncateMessages_of_le (limit : Nat) (l : List ChatMessage)
    (h : l.length ≤ limit) : truncateMessages limit l = l := by
  simp [truncateMessages, h]

theorem truncateMessages_of_lt (limit : Nat) (l : List ChatMessage)
    (h : limit < l.length) (hk : limit / 2 ≠ 0) :
    truncateMessages limit l =
      l.take (limit / 2) ++ truncationMarker :: l.drop (l.length - limit / 2) := by
  simp [truncateMessages, Nat.not_le.mpr h, jsSliceLast, hk]

-- ### Claim C1 (truncation shape) and claim C9 (degenerate limits)

/-- Claim C1, amended: for every message list and truncation limit of at
least 2 (so that `k = limit / 2 ≥ 1`): if the list's length is at most the
limit, `truncateMessages` returns the list unchanged; otherwise it returns
the first `k` messages, one marker, then the last `k` messages; in
particular for 1000 messages and limit 500 the result has 501 entries with
the first 250 preserved, the marker at index 250, and the last 250
preserved.  (As stated for every positive limit the claim fails at
`limit = 1`, where the code returns the marker followed by the whole
list — see the counterexample and claim C9.) -/
theorem claim1_truncation (l : List ChatMessage) (limit : Nat) (h2 : 2 ≤ limit) :
    (l.length ≤ limit → truncateMessages limit l = l) ∧
    (limit < l.length →
      truncateMessages limit l =
        l.take (limit / 2) ++ truncationMarker :: l.drop (l.length - limit / 2) ∧
      (truncateMessages limit l).length = 2 * (limit / 2) + 1) ∧
    (limit = 500 → l.length = 1000 →
      (truncateMessages limit l).length = 501 ∧
      (truncateMessages limit l).take 250 = l.take 250 ∧
      (truncateMessages limit l).drop 250 = truncationMarker :: l.drop 750) := by
  have hk : limit / 2 ≠ 0 := by omega
  refine ⟨truncateMessages_of_le limit l, ?_, ?_⟩
  · intro hlt
    have heq := truncateMessages_of_lt limit l hlt hk
    refine ⟨heq, ?_⟩
    rw [heq]
    simp only [List.length_append, List.length_cons, List.length_take, List.length_drop]
    omega
  · intro h500 h1000
    subst h500
    have hlt : 500 < l.length := by omega
    have heq := truncateMessages_of_lt 500 l hlt hk
    rw [h1000] at heq
    norm_num at heq
    have hA : (l.take 250).length = 250 := by
      rw [List.length_take]; omega
    refine ⟨?_, ?_, ?_⟩
    · rw [heq]
      simp only [List.length_append, List.length_cons, List.length_take, List.length_drop,
        h1000]
      omega
    · rw [heq, List.take_append_eq_append_take, hA]
      simp [List.take_take]
    · rw [heq, List.drop_append_eq_append_drop, hA]
      simp [List.drop_eq_nil_of_le, hA.le]

/-- Claim C1 counterexample: the claim as stated quantifies over every
positive limit, but at `limit = 1` (positive, `k = 0`) the code returns
the marker followed by the entire two-message list rather than
"first 0 messages, marker, last 0 messages" (which would be `[marker]`). -/
theorem claim1_counterexample :
    truncateMessages 1 [⟨Role.user, "a"⟩, ⟨Role.user, "b"⟩] ≠
      ([⟨Role.user, "a"⟩, ⟨Role.user, "b"⟩] : List ChatMessage).take (1 / 2) ++
        truncationMarker ::
          ([⟨Role.user, "a"⟩, ⟨Role.user, "b"⟩] : List ChatMessage).drop (2 - 1 / 2) := by
  decide

/-- Claim C1 witness: the amended theorem applied at limit 2 and a
three-message list. -/
theorem claim1_witness :
    truncateMessages 2 [⟨Role.user, "a"⟩, ⟨Role.user, "b"⟩, ⟨Role.user, "c"⟩] =
      [⟨Role.user, "a"⟩, truncationMarker, ⟨Role.user, "c"⟩] := by
  have h :=
    (claim1_truncation [⟨Role.user, "a"⟩, ⟨Role.user, "b"⟩, ⟨Role.user, "c"⟩] 2
        (by decide)).2.1 (by decide)
  exact h.1.trans (by decide)

/-- Claim C9: when the truncation limit is 0 or 1 (so `floor(limit/2) = 0`)
and the list holds more than `limit` messages, the output is not bounded:
`slice(-0)` yields the whole array, so the result is the marker followed by
all `n` original messages, `n + 1` entries. -/
theorem claim9_degenerateLimit (limit : Nat) (l : List ChatMessage)
    (hlim : limit = 0 ∨ limit = 1) (hlen : limit < l.length) :
    truncateMessages limit l = truncationMarker :: l ∧
    (truncateMessages limit l).length = l.length + 1 := by
  have hk : limit / 2 = 0 := by omega
  have hnle : ¬ l.length ≤ limit := Nat.not_le.mpr hlen
  constructor
  · simp [truncateMessages, hnle, hk, jsSliceLast]
  · simp [truncateMessages, hnle, hk, jsSliceLast]

/-- Claim C9 witness: the theorem applied at limit 1 and a two-message
list. -/
theorem claim9_witness :
    truncateMessages 1 [⟨Role.user, "a"⟩, ⟨Role.user, "b"⟩] =
      truncationMarker :: [⟨Role.user, "a"⟩, ⟨Role.user, "b"⟩] ∧
    (truncateMessages 1 [⟨Role.user, "a"⟩, ⟨Role.user, "b"⟩]).length = 3 :=
  claim9_degenerateLimit 1 [⟨Role.user, "a"⟩, ⟨Role.user, "b"⟩] (Or.inr rfl) (by decide)

-- ### Reduction lemmas for the store operations

theorem map_self (l : List ChatMessage) : l.map (fun msg => msg) = l := by
  induction l with
  | nil => rfl
  | cons x xs ih => simp [List.map_cons, ih]

theorem cloneConversation_eq (m : ConversationManager) (sid : Nat) (src : ConversationState)
    (newModelId : String) (now : Nat)
    (hsrc : lookupConv m.conversations sid = some src) :
    m.cloneConversation sid newModelId now =
      .ok (m.nextId,
        { conversations :=
            (m.nextId,
              { id := m.nextId, modelId := newModelId, messages := src.messages,
                createdAt := now, updatedAt := now }) ::
              updateConv m.conversations m.nextId
                (fun c => { c with messages := src.messages.map (fun msg => msg),
                                   updatedAt := now }),
          truncateLimit := m.truncateLimit,
          nextId := m.nextId + 1 }) := by
  simp only [ConversationManager.cloneConversation, hsrc,
    ConversationManager.createConversation, lookupConv, if_pos]
  simp [updateConv, map_self]

/-- Sequential appends: run `addMessage` for each (role, content) pair in
order, stopping at the first error — models a sequence of `append` tool
calls against the store. -/
def appendAll (m : ConversationManager) (conversationId : Nat)
    (msgs : List (Role × String)) (now : Nat) : Except ConvError ConversationManager :=
  match msgs with
  | [] => .ok m
  | (role, content) :: rest =>
    match m.addMessage conversationId role content now with
    | .ok m' => appendAll m' conversationId rest now
    | .error e => .error e

theorem appendAll_spec (msgs : List (Role × String)) :
    ∀ (m : ConversationManager) (cid : Nat) (conv : ConversationState) (now : Nat),
      lookupConv m.conversations cid = some conv →
      ∃ m', appendAll m cid msgs now = .ok m' ∧
        m'.truncateLimit = m.truncateLimit ∧
        ∃ conv', lookupConv m'.conversations cid = some conv' ∧
          conv'.id = conv.id ∧ conv'.modelId = conv.modelId ∧
          conv'.messages = conv.messages ++ msgs.map (fun p => ⟨p.1, p.2⟩) := by
  induction msgs with
  | nil =>
    intro m cid conv now hl
    exact ⟨m, rfl, rfl, conv, hl, rfl, rfl, by simp⟩
  | cons p rest ih =>
    intro m cid conv now hl
    obtain ⟨role, content⟩ := p
    have hstep : appendAll m cid ((role, content) :: rest) now =
        appendAll
          { m with
            conversations :=
              updateConv m.conversations cid
                (fun c =>
                  { c with messages := c.messages ++ [⟨role, content⟩], updatedAt := now }) }
          cid rest now := by
      simp [appendAll, ConversationManager.addMessage, hl]
    have hl1 : lookupConv
        (updateConv m.conversations cid
          (fun c =>
            { c with messages := c.messages ++ [⟨role, content⟩], updatedAt := now })) cid =
        some { conv with messages := conv.messages ++ [⟨role, content⟩], updatedAt := now } := by
      rw [lookupConv_updateConv]
      simp [hl]
    obtain ⟨m', hApp, hTL, conv', hlc, hid, hmodel, hmsgs⟩ :=
      ih { m with
           conversations :=
             updateConv m.conversations cid
               (fun c =>
                 { c with messages := c.messages ++ [⟨role, content⟩], updatedAt := now }) }
        cid { conv with messages := conv.messages ++ [⟨role, content⟩], updatedAt := now }
        now hl1
    refine ⟨m', hstep.trans hApp, hTL, conv', hlc, hid, hmodel, ?_⟩
    rw [hmsgs]
    simp

-- ### Claim C5 (append order) and claim C3 (NotFound discipline)

/-- Claim C5: for every finite sequence of append calls made on a freshly
created conversation, if the truncation limit is at least the number of
appended messages then `getHistory` returns exactly the appended messages,
each with its given role and content, in call order. -/
theorem claim5_appendOrder (m0 : ConversationManager) (modelId : String) (now : Nat)
    (msgs : List (Role × String))
    (hlim : msgs.length ≤ m0.truncateLimit) :
    ∃ m', appendAll (m0.createConversation modelId now).2
            (m0.createConversation modelId now).1 msgs now = .ok m' ∧
      m'.getHistory (m0.createConversation modelId now).1 =
        .ok (msgs.map (fun p => ⟨p.1, p.2⟩)) := by
  have hl : lookupConv (m0.createConversation modelId now).2.conversations
      (m0.createConversation modelId now).1 =
      some { id := m0.nextId, modelId := modelId, messages := [],
             createdAt := now, updatedAt := now } := by
    simp [ConversationManager.createConversation, lookupConv]
  obtain ⟨m', hApp, hTL, conv', hlc, hid, hmodel, hmsgs⟩ :=
    appendAll_spec msgs _ _ _ now hl
  have hTL' : m'.truncateLimit = m0.truncateLimit := by
    rw [hTL]; rfl
  have htr : truncateMessages m'.truncateLimit conv'.messages =
      msgs.map (fun p => ⟨p.1, p.2⟩) := by
    rw [hmsgs]
    simp only [List.nil_append]
    exact truncateMessages_of_le _ _ (by rw [List.length_map, hTL']; exact hlim)
  refine ⟨m', hApp, ?_⟩
  simp [ConversationManager.getHistory, hlc, htr]

/-- Claim C5 witness: two appends on a fresh conversation with limit 5. -/
theorem claim5_witness :
    ∃ m', appendAll (ConversationManager.createConversation ⟨[], 5, 0⟩ "gpt" 7).2
            (ConversationManager.createConversation ⟨[], 5, 0⟩ "gpt" 7).1
            [(Role.user, "hi"), (Role.assistant, "yo")] 7 = .ok m' ∧
      m'.getHistory (ConversationManager.createConversation ⟨[], 5, 0⟩ "gpt" 7).1 =
        .ok [⟨Role.user, "hi"⟩, ⟨Role.assistant, "yo"⟩] :=
  claim5_appendOrder ⟨[], 5, 0⟩ "gpt" 7 [(Role.user, "hi"), (Role.assistant, "yo")]
    (by decide)

/-- Claim C3: for every id not present in the store, `get` returns
not-found, and `append`/`history`/`clone` fail with a NotFound-class error
(never `cloneFailed`, the only unrelated error the manager can produce);
for present ids, all four operations succeed outright, so none fails with
NotFound. -/
theorem claim3_notFoundDiscipline (m : ConversationManager) (id : Nat) (role : Role)
    (content newModelId : String) (now : Nat) :
    (m.getConversation id = none →
      m.addMessage id role content now = .error (.notFound id) ∧
      m.getHistory id = .error (.notFound id) ∧
      m.cloneConversation id newModelId now = .error (.sourceNotFound id) ∧
      (ConvError.notFound id).isNotFound = true ∧
      (ConvError.sourceNotFound id).isNotFound = true) ∧
    (∀ c, m.getConversation id = some c →
      (∃ m', m.addMessage id role content now = .ok m') ∧
      (∃ h, m.getHistory id = .ok h) ∧
      (∃ r, m.cloneConversation id newModelId now = .ok r)) := by
  constructor
  · intro hnone
    simp only [ConversationManager.getConversation] at hnone
    refine ⟨?_, ?_, ?_, rfl, rfl⟩ <;>
      simp [ConversationManager.addMessage, ConversationManager.getHistory,
        ConversationManager.cloneConversation, hnone]
  · intro c hsome
    simp only [ConversationManager.getConversation] at hsome
    refine ⟨?_, ?_, ?_⟩
    · refine ⟨{ m with
          conversations :=
            updateConv m.conversations id
              (fun cc =>
                { cc with messages := cc.messages ++ [⟨role, content⟩],
                          updatedAt := now }) }, ?_⟩
      simp [ConversationManager.addMessage, hsome]
    · exact ⟨truncateMessages m.truncateLimit c.messages, by
        simp [ConversationManager.getHistory, hsome]⟩
    · exact ⟨_, cloneConversation_eq m id c newModelId now hsome⟩

/-- Claim C3 witness: a store holding one conversation with key 0, probed
at the missing id 1 and at the present id 0. -/
theorem claim3_witness :
    (ConversationManager.getConversation
        ⟨[(0, ⟨0, "gpt", [], 0, 0⟩)], 5, 1⟩ 1 = none →
      ConversationManager.addMessage ⟨[(0, ⟨0, "gpt", [], 0, 0⟩)], 5, 1⟩ 1 Role.user "x" 2 =
        .error (.notFound 1) ∧
      ConversationManager.getHistory ⟨[(0, ⟨0, "gpt", [], 0, 0⟩)], 5, 1⟩ 1 =
        .error (.notFound 1) ∧
      ConversationManager.cloneConversation ⟨[(0, ⟨0, "gpt", [], 0, 0⟩)], 5, 1⟩ 1 "o3" 2 =
        .error (.sourceNotFound 1) ∧
      (ConvError.notFound 1).isNotFound = true ∧
      (ConvError.sourceNotFound 1).isNotFound = true) ∧
    (∀ c, ConversationManager.getConversation
        ⟨[(0, ⟨0, "gpt", [], 0, 0⟩)], 5, 1⟩ 0 = some c →
      (∃ m', ConversationManager.addMessage ⟨[(0, ⟨0, "gpt", [], 0, 0⟩)], 5, 1⟩ 0
          Role.user "x" 2 = .ok m') ∧
      (∃ h, ConversationManager.getHistory ⟨[(0, ⟨0, "gpt", [], 0, 0⟩)], 5, 1⟩ 0 = .ok h) ∧
      (∃ r, ConversationManager.cloneConversation ⟨[(0, ⟨0, "gpt", [], 0, 0⟩)], 5, 1⟩ 0
          "o3" 2 = .ok r)) :=
  ⟨(claim3_notFoundDiscipline ⟨[(0, ⟨0, "gpt", [], 0, 0⟩)], 5, 1⟩ 1 Role.user "x" "o3" 2).1,
   (claim3_notFoundDiscipline ⟨[(0, ⟨0, "gpt", [], 0, 0⟩)], 5, 1⟩ 0 Role.user "x" "o3" 2).2⟩

-- ### Claim C2 (clone semantics)

/-- Claim C2: for every conversation present in the store (with the store
in its reachable well-formed state) and every new model id, clone returns
a fresh identifier different from the source id, binds the new
conversation to the new model id with a value-equal copy of the source's
full untruncated message list, and leaves the source conversation's id,
model id and messages unmodified. -/
theorem claim2_clone (m : ConversationManager) (sid : Nat) (src : ConversationState)
    (newModelId : String) (now : Nat)
    (hwf : m.wf = true) (hsrc : m.getConversation sid = some src) :
    ∃ r, m.cloneConversation sid newModelId now = .ok r ∧
      r.1 ≠ sid ∧
      m.getConversation r.1 = none ∧
      r.2.getConversation r.1 =
        some { id := r.1, modelId := newModelId, messages := src.messages,
               createdAt := now, updatedAt := now } ∧
      r.2.getConversation sid = some src := by
  simp only [ConversationManager.getConversation] at hsrc
  simp only [ConversationManager.wf] at hwf
  have hlt : sid < m.nextId :=
    lookupConv_lt_of_all_lt m.conversations m.nextId sid src hwf hsrc
  have hne : ¬ m.nextId = sid := fun h => absurd (h ▸ hlt) (Nat.lt_irrefl _)
  have hne' : ¬ sid = m.nextId := fun h => hne h.symm
  refine ⟨_, cloneConversation_eq m sid src newModelId now hsrc, hne, ?_, ?_, ?_⟩
  · simp only [ConversationManager.getConversation]
    exact lookupConv_none_of_all_lt m.conversations m.nextId hwf
  · simp [ConversationManager.getConversation, lookupConv]
  · simp [ConversationManager.getConversation, lookupConv, hne, lookupConv_updateConv,
      hne', hsrc]

/-- Claim C2 witness: cloning a one-message conversation (key 0) to a new
model id in a concrete store. -/
theorem claim2_witness :
    ∃ r, ConversationManager.cloneConversation
        ⟨[(0, ⟨0, "gpt", [⟨Role.user, "hi"⟩], 0, 0⟩)], 5, 1⟩ 0 "o3" 9 = .ok r ∧
      r.1 ≠ 0 ∧
      ConversationManager.getConversation
        ⟨[(0, ⟨0, "gpt", [⟨Role.user, "hi"⟩], 0, 0⟩)], 5, 1⟩ r.1 = none ∧
      r.2.getConversation r.1 =
        some { id := r.1, modelId := "o3", messages := [⟨Role.user, "hi"⟩],
               createdAt := 9, updatedAt := 9 } ∧
      r.2.getConversation 0 = some ⟨0, "gpt", [⟨Role.user, "hi"⟩], 0, 0⟩ :=
  claim2_clone ⟨[(0, ⟨0, "gpt", [⟨Role.user, "hi"⟩], 0, 0⟩)], 5, 1⟩ 0
    ⟨0, "gpt", [⟨Role.user, "hi"⟩], 0, 0⟩ "o3" 9 (by decide) (by decide)

-- ### Claim C7 (store invariants)

/-- Store preservation relation: every conversation present before an
operation is present afterwards with the same `id`, the same `modelId`,
and at least as many messages. -/
def convPreserved (m m' : ConversationManager) : Prop :=
  ∀ id c, lookupConv m.conversations id = some c →
    ∃ c', lookupConv m'.conversations id = some c' ∧
      c'.id = c.id ∧ c'.modelId = c.modelId ∧ c.messages.length ≤ c'.messages.length

/-- Claim C7: each store operation preserves the invariants — a stored
conversation's id never changes, its message list never shrinks, and its
single bound model id is untouched; `create`, `append` (on success) and
`clone` (on success) preserve all existing conversations, and `history`
computes a pure view of the stored list (`get` and `history` do not
produce a new store at all in the embedding, matching the source, which
only reads). -/
theorem claim7_invariants (m : ConversationManager) (hwf : m.wf = true)
    (modelId content newModelId : String) (role : Role) (tid sid : Nat) (now : Nat) :
    convPreserved m (m.createConversation modelId now).2 ∧
    (∀ m', m.addMessage tid role content now = .ok m' → convPreserved m m') ∧
    (∀ r, m.cloneConversation sid newModelId now = .ok r → convPreserved m r.2) ∧
    (∀ h c, m.getHistory tid = .ok h → m.getConversation tid = some c →
      h = truncateMessages m.truncateLimit c.messages) := by
  simp only [ConversationManager.wf] at hwf
  refine ⟨?_, ?_, ?_, ?_⟩
  · intro id c hl
    have hlt := lookupConv_lt_of_all_lt m.conversations m.nextId id c hwf hl
    have hne : ¬ m.nextId = id := fun h => absurd (h ▸ hlt) (Nat.lt_irrefl _)
    refine ⟨c, ?_, rfl, rfl, le_refl _⟩
    simp [ConversationManager.createConversation, lookupConv, hne, hl]
  · intro m' hok
    cases hl0 : lookupConv m.conversations tid with
    | none => simp [ConversationManager.addMessage, hl0] at hok
    | some c0 =>
      simp only [ConversationManager.addMessage, hl0, Except.ok.injEq] at hok
      subst hok
      intro id c hl
      by_cases hidt : id = tid
      · subst hidt
        rw [hl0] at hl
        injection hl with hl
        refine ⟨{ c0 with messages := c0.messages ++ [⟨role, content⟩], updatedAt := now },
          ?_, by simp [hl], by simp [hl], ?_⟩
        · simp [lookupConv_updateConv, hl0]
        · rw [← hl]
          simp
      · refine ⟨c, ?_, rfl, rfl, le_refl _⟩
        simp [lookupConv_updateConv, hidt, hl]
  · intro r hok
    cases hl0 : lookupConv m.conversations sid with
    | none => simp [ConversationManager.cloneConversation, hl0] at hok
    | some src =>
      rw [cloneConversation_eq m sid src newModelId now hl0] at hok
      simp only [Except.ok.injEq] at hok
      subst hok
      intro id c hl
      have hlt := lookupConv_lt_of_all_lt m.conversations m.nextId id c hwf hl
      have hne : ¬ m.nextId = id := fun h => absurd (h ▸ hlt) (Nat.lt_irrefl _)
      have hne' : ¬ id = m.nextId := fun h => hne h.symm
      refine ⟨c, ?_, rfl, rfl, le_refl _⟩
      simp [lookupConv, hne, lookupConv_updateConv, hne', hl]
  · intro h c hok hc
    simp only [ConversationManager.getConversation] at hc
    simp only [ConversationManager.getHistory, hc, Except.ok.injEq] at hok
    exact hok.symm

/-- Claim C7 witness: the create-preservation component applied to a
concrete one-conversation store. -/
theorem claim7_witness :
    ∃ c', lookupConv (ConversationManager.createConversation
          ⟨[(0, ⟨0, "gpt", [], 0, 0⟩)], 5, 1⟩ "o3" 2).2.conversations 0 = some c' ∧
      c'.id = (⟨0, "gpt", [], 0, 0⟩ : ConversationState).id ∧
      c'.modelId = (⟨0, "gpt", [], 0, 0⟩ : ConversationState).modelId ∧
      (⟨0, "gpt", [], 0, 0⟩ : ConversationState).messages.length ≤ c'.messages.length :=
  (claim7_invariants ⟨[(0, ⟨0, "gpt", [], 0, 0⟩)], 5, 1⟩ (by decide) "o3" "x" "o3"
      Role.user 0 0 2).1 0 ⟨0, "gpt", [], 0, 0⟩ (by decide)

-- ### The chat tool handler prefix (mcp-tools.ts) and claim C10

theorem updateConv_length (l : List (Nat × ConversationState)) (t : Nat)
    (f : ConversationState → ConversationState) :
    (updateConv l t f).length = l.length := by
  simp [updateConv]

/-- JavaScript truthiness of an optional string argument as tested by
`if (modelId ...)`: `undefined` and the empty string are falsy. -/
def jsStrTruthy : Option String → Bool
  | none => false
  | some s => !(s == "")

/-- JavaScript `modelId || config.models[0].id`. -/
def jsStrOrDefault (v : Option String) (d : String) : String :=
  if jsStrTruthy v then v.getD d else d

/-- Outcome of the conversation-resolution and model-validation prefix of
the `chat` tool handler (`mcp-tools.ts` lines 47–100), i.e. everything
before the backend call. -/
inductive ChatStep where
  | errorConvNotFound (conversationId : Nat)
  | errorModelNotConfigured (modelId : String)
  | proceed (conversationId : Nat) (modelId : String)
  | thrown (e : ConvError)
deriving DecidableEq, Repr

/-- The "Validate model exists" step of the chat handler:
`openaiClients.get(actualModelId)`, with the configured clients modelled
by their list of model ids. -/
def validateModel (clients : List String) (conversationId : Nat) (modelId : String)
    (m : ConversationManager) : ChatStep × ConversationManager :=
  if clients.contains modelId then (.proceed conversationId modelId, m)
  else (.errorModelNotConfigured modelId, m)

/-- The conversation-resolution prefix of the `chat` tool handler
(`mcp-tools.ts` lines 47–100): resolve or create/clone the conversation
first, then validate the model; any store mutation therefore happens
before the model check.  A throw escaping to the handler's catch is the
`thrown` outcome. -/
def chatDispatch (m : ConversationManager) (clients : List String) (defaultModelId : String)
    (conversationId : Option Nat) (modelId : Option String) (now : Nat) :
    ChatStep × ConversationManager :=
  match conversationId with
  | some cid =>
    match m.getConversation cid with
    | none => (.errorConvNotFound cid, m)
    | some existing =>
      if jsStrTruthy modelId && (modelId.getD "" != existing.modelId) then
        match m.cloneConversation cid (modelId.getD "") now with
        | .ok r => validateModel clients r.1 (modelId.getD "") r.2
        | .error e => (.thrown e, m)
      else
        validateModel clients cid existing.modelId m
  | none =>
    let actualModelId := jsStrOrDefault modelId defaultModelId
    let r := m.createConversation actualModelId now
    validateModel clients r.1 actualModelId r.2

/-- Claim C10: a chat invocation that resolves to a model id with no
configured client returns the model-not-configured error, but only after
the store has been mutated: with no conversation id given, a fresh empty
conversation bound to the unconfigured model id has been created; with a
conversation id plus a different (non-empty) model id given, a full clone
has been created.  In both scenarios the store has grown by one entry when
the error is returned. -/
theorem claim10_mutationBeforeModelCheck (m : ConversationManager) (clients : List String)
    (defaultModelId mid : String) (now : Nat)
    (hwf : m.wf = true) (hnc : clients.contains mid = false) (hne : mid ≠ "") :
    ((chatDispatch m clients defaultModelId none (some mid) now).1 =
        .errorModelNotConfigured mid ∧
      (chatDispatch m clients defaultModelId none (some mid) now).2.conversations.length =
        m.conversations.length + 1 ∧
      lookupConv (chatDispatch m clients defaultModelId none (some mid) now).2.conversations
          m.nextId =
        some { id := m.nextId, modelId := mid, messages := [], createdAt := now,
               updatedAt := now } ∧
      lookupConv m.conversations m.nextId = none) ∧
    (∀ cid existing, m.getConversation cid = some existing → mid ≠ existing.modelId →
      (chatDispatch m clients defaultModelId (some cid) (some mid) now).1 =
        .errorModelNotConfigured mid ∧
      (chatDispatch m clients defaultModelId (some cid) (some mid) now).2.conversations.length =
        m.conversations.length + 1 ∧
      m.nextId ≠ cid ∧
      lookupConv
          (chatDispatch m clients defaultModelId (some cid) (some mid) now).2.conversations
          m.nextId =
        some { id := m.nextId, modelId := mid, messages := existing.messages,
               createdAt := now, updatedAt := now }) := by
  simp only [ConversationManager.wf] at hwf
  have hmid : (mid == "") = false := by
    simp [hne]
  have hnotmem : mid ∉ clients := by
    simpa using hnc
  constructor
  · have hred : chatDispatch m clients defaultModelId none (some mid) now =
        (.errorModelNotConfigured mid, (m.createConversation mid now).2) := by
      simp [chatDispatch, jsStrOrDefault, jsStrTruthy, hmid, validateModel, hnc, hnotmem]
    refine ⟨by rw [hred], ?_, ?_, ?_⟩
    · rw [hred]
      simp [ConversationManager.createConversation]
    · rw [hred]
      simp [ConversationManager.createConversation, lookupConv]
    · exact lookupConv_none_of_all_lt m.conversations m.nextId hwf
  · intro cid existing hex hneq
    simp only [ConversationManager.getConversation] at hex
    have hbne : (mid != existing.modelId) = true := bne_iff_ne.mpr hneq
    have hclone := cloneConversation_eq m cid existing mid now hex
    have hred : chatDispatch m clients defaultModelId (some cid) (some mid) now =
        (.errorModelNotConfigured mid,
          { conversations :=
              (m.nextId,
                { id := m.nextId, modelId := mid, messages := existing.messages,
                  createdAt := now, updatedAt := now }) ::
                updateConv m.conversations m.nextId
                  (fun c => { c with messages := existing.messages.map (fun msg => msg),
                                     updatedAt := now }),
            truncateLimit := m.truncateLimit,
            nextId := m.nextId + 1 }) := by
      simp [chatDispatch, ConversationManager.getConversation, hex, jsStrTruthy, hmid,
        hbne, hclone, validateModel, hnc, hnotmem]
    have hlt := lookupConv_lt_of_all_lt m.conversations m.nextId cid existing hwf hex
    have hne2 : m.nextId ≠ cid := fun h => absurd (h ▸ hlt) (Nat.lt_irrefl _)
    refine ⟨by rw [hred], ?_, hne2, ?_⟩
    · rw [hred]
      simp [updateConv_length]
    · rw [hred]
      simp [lookupConv]

/-- Claim C10 witness: concrete one-conversation store, configured client
list `["gpt"]`, unconfigured requested model `"o3"`; both the
new-conversation scenario and the clone scenario. -/
theorem claim10_witness :
    (chatDispatch ⟨[(0, ⟨0, "gpt", [⟨Role.user, "hi"⟩], 0, 0⟩)], 5, 1⟩ ["gpt"] "gpt"
        none (some "o3") 3).1 = .errorModelNotConfigured "o3" ∧
    (chatDispatch ⟨[(0, ⟨0, "gpt", [⟨Role.user, "hi"⟩], 0, 0⟩)], 5, 1⟩ ["gpt"] "gpt"
        (some 0) (some "o3") 3).1 = .errorModelNotConfigured "o3" ∧
    lookupConv (chatDispatch ⟨[(0, ⟨0, "gpt", [⟨Role.user, "hi"⟩], 0, 0⟩)], 5, 1⟩ ["gpt"]
        "gpt" (some 0) (some "o3") 3).2.conversations 1 =
      some ⟨1, "o3", [⟨Role.user, "hi"⟩], 3, 3⟩ := by
  have h := claim10_mutationBeforeModelCheck
    ⟨[(0, ⟨0, "gpt", [⟨Role.user, "hi"⟩], 0, 0⟩)], 5, 1⟩ ["gpt"] "gpt" "o3" 3
    (by decide) (by decide) (by decide)
  have h2 := h.2 0 ⟨0, "gpt", [⟨Role.user, "hi"⟩], 0, 0⟩ (by decide) (by decide)
  exact ⟨h.1.1, h2.1, h2.2.2.2⟩

-- ### Process supervisor (launcher.ts): claims C6 and C4

namespace ServerLauncher

/-- Outcome of one HTTP GET against the fixed liveness path
`http://localhost:PORT/health` with the bounded timeout (`launcher.ts`
lines 349–364): a response carrying a status code, a network error, or a
timeout. -/
inductive ProbeOutcome where
  | response (statusCode : Nat)
  | networkError
  | timeout
deriving DecidableEq, Repr

/-- The probe timeout in milliseconds passed to `http.get` (line 351). -/
def healthTimeoutMs : Nat := 2000

/-- The status code the `/health` route of `http-server.ts` (lines 23–26)
responds with: `res.json({status: "ok"})` sends 200. -/
def healthRouteStatus : Nat := 200

/-- `isServerRunning` (`launcher.ts` lines 349–364): resolves `true`
exactly on a 200 status; the error and timeout handlers resolve `false`;
the promise never rejects, so the caller never sees a throw. -/
def isServerRunning : ProbeOutcome → Bool
  | .response statusCode => statusCode == 200
  | .networkError => false
  | .timeout => false

/-- Options of the single `spawn("node", [serverScript], ...)` call of
`startServer` (lines 377–384). -/
structure SpawnOptions where
  detached : Bool
  stdioIgnore : Bool
deriving DecidableEq, Repr

/-- The spawn is detached with stdio ignored (`detached: true`,
`stdio: "ignore"`), and `unref()` is called right after. -/
def serverSpawnOptions : SpawnOptions := { detached := true, stdioIgnore := true }

/-- `maxRetries` of the poll loop in `startServer` (line 391). -/
def maxRetries : Nat := 30

/-- The `setTimeout` pause between failed polls, in milliseconds
(line 400). -/
def pollIntervalMs : Nat := 1000

/-- The distinct "Server failed to start within timeout" error. -/
inductive LaunchError where
  | startupTimeout
deriving DecidableEq, Repr

/-- The `while (retries < maxRetries)` poll loop of `startServer`
(lines 390–404), with the environment modelled as the sequence of probe
outcomes; the fuel counts remaining attempts and the result is the index
of the first successful probe. -/
def pollLoop (probe : Nat → ProbeOutcome) : Nat → Nat → Except LaunchError Nat
  | 0, _ => .error .startupTimeout
  | fuel + 1, idx =>
    if isServerRunning (probe idx) then .ok idx
    else pollLoop probe fuel (idx + 1)

/-- Result of `ensureServerRunning`: how many OS processes were spawned,
and either the index of the successful probe or the startup-timeout
error. -/
structure EnsureResult where
  spawned : Nat
  outcome : Except LaunchError Nat
deriving Repr

/-- `startServer` (lines 369–414): spawn exactly once, then poll up to
`maxRetries` times starting at probe index 1 (index 0 being the probe
`ensureServerRunning` already made). -/
def startServer (probe : Nat → ProbeOutcome) : EnsureResult :=
  { spawned := 1, outcome := pollLoop probe maxRetries 1 }

/-- `ensureServerRunning` (lines 419–437): probe once; on success return
without spawning anything, otherwise run `startServer` (the catch clause
rethrows unchanged). -/
def ensureServerRunning (probe : Nat → ProbeOutcome) : EnsureResult :=
  if isServerRunning (probe 0) then { spawned := 0, outcome := .ok 0 }
  else startServer probe

end ServerLauncher

/-- Claim C6: `isServerRunning` is a total boolean function of the probe
outcome (both failure handlers resolve `false`, so nothing is ever thrown
to the caller), returning `true` exactly on a 200 status — the status the
`/health` route responds with — and `false` on any network error, timeout
or non-200 status. -/
theorem claim6_isRunning (o : ServerLauncher.ProbeOutcome) :
    (ServerLauncher.isServerRunning o = true ↔
      o = .response ServerLauncher.healthRouteStatus) ∧
    ServerLauncher.isServerRunning .networkError = false ∧
    ServerLauncher.isServerRunning .timeout = false ∧
    (∀ s, s ≠ 200 → ServerLauncher.isServerRunning (.response s) = false) := by
  refine ⟨?_, rfl, rfl, ?_⟩
  · cases o with
    | response s => simp [ServerLauncher.isServerRunning, ServerLauncher.healthRouteStatus]
    | networkError => simp [ServerLauncher.isServerRunning]
    | timeout => simp [ServerLauncher.isServerRunning]
  · intro s hs
    simp [ServerLauncher.isServerRunning, hs]

/-- Claim C6 witness: a 200 response probes as running, a 404 response and
a timeout do not. -/
theorem claim6_witness :
    ServerLauncher.isServerRunning (.response 200) = true ∧
    ServerLauncher.isServerRunning (.response 404) = false :=
  ⟨(claim6_isRunning (.response 200)).1.mpr rfl,
   (claim6_isRunning (.response 404)).2.2.2 404 (by decide)⟩

theorem pollLoop_timeout (probe : Nat → ServerLauncher.ProbeOutcome) :
    ∀ (fuel idx : Nat),
      (∀ i, i < fuel → ServerLauncher.isServerRunning (probe (idx + i)) = false) →
      ServerLauncher.pollLoop probe fuel idx = .error .startupTimeout := by
  intro fuel
  induction fuel with
  | zero => intro idx _; rfl
  | succ n ih =>
    intro idx h
    have h0 := h 0 (Nat.succ_pos n)
    simp only [Nat.add_zero] at h0
    simp only [ServerLauncher.pollLoop, h0, Bool.false_eq_true, if_false]
    apply ih
    intro i hi
    have hcur := h (i + 1) (Nat.succ_lt_succ hi)
    have harr : idx + (i + 1) = idx + 1 + i := by omega
    rw [harr] at hcur
    exact hcur

theorem pollLoop_firstSuccess (probe : Nat → ServerLauncher.ProbeOutcome) :
    ∀ (fuel idx j : Nat), j < fuel →
      ServerLauncher.isServerRunning (probe (idx + j)) = true →
      (∀ i, i < j → ServerLauncher.isServerRunning (probe (idx + i)) = false) →
      ServerLauncher.pollLoop probe fuel idx = .ok (idx + j) := by
  intro fuel
  induction fuel with
  | zero => intro idx j hj _ _; omega
  | succ n ih =>
    intro idx j hj hsucc hbefore
    cases j with
    | zero =>
      simp only [Nat.add_zero] at hsucc
      simp [ServerLauncher.pollLoop, hsucc]
    | succ k =>
      have h0 := hbefore 0 (Nat.succ_pos k)
      simp only [Nat.add_zero] at h0
      simp only [ServerLauncher.pollLoop, h0, Bool.false_eq_true, if_false]
      have harr : idx + (k + 1) = idx + 1 + k := by omega
      rw [harr]
      rw [harr] at hsucc
      refine ih (idx + 1) k (by omega) hsucc ?_
      intro i hi
      have hcur := hbefore (i + 1) (Nat.succ_lt_succ hi)
      have harr2 : idx + (i + 1) = idx + 1 + i := by omega
      rw [harr2] at hcur
      exact hcur

/-- Claim C4: `ensureServerRunning` first probes the port; a successful
probe returns immediately with no spawn; otherwise exactly one detached
OS process is spawned and `isServerRunning` is polled at the fixed
1-second interval for at most 30 attempts, returning as soon as a poll
succeeds and failing with the distinct startup-timeout error after all 30
attempts fail. -/
theorem claim4_ensureRunning (probe : Nat → ServerLauncher.ProbeOutcome) :
    (ServerLauncher.isServerRunning (probe 0) = true →
      ServerLauncher.ensureServerRunning probe = { spawned := 0, outcome := .ok 0 }) ∧
    (ServerLauncher.isServerRunning (probe 0) = false →
      (ServerLauncher.ensureServerRunning probe).spawned = 1 ∧
      ServerLauncher.serverSpawnOptions.detached = true ∧
      (∀ j, j < ServerLauncher.maxRetries →
        ServerLauncher.isServerRunning (probe (1 + j)) = true →
        (∀ i, i < j → ServerLauncher.isServerRunning (probe (1 + i)) = false) →
        (ServerLauncher.ensureServerRunning probe).outcome = .ok (1 + j)) ∧
      ((∀ i, i < ServerLauncher.maxRetries →
          ServerLauncher.isServerRunning (probe (1 + i)) = false) →
        (ServerLauncher.ensureServerRunning probe).outcome = .error .startupTimeout)) ∧
    ServerLauncher.maxRetries = 30 ∧
    ServerLauncher.pollIntervalMs = 1000 ∧
    ServerLauncher.healthTimeoutMs = 2000 := by
  refine ⟨?_, ?_, rfl, rfl, rfl⟩
  · intro h
    simp [ServerLauncher.ensureServerRunning, h]
  · intro h
    refine ⟨?_, rfl, ?_, ?_⟩
    · simp [ServerLauncher.ensureServerRunning, h, ServerLauncher.startServer]
    · intro j hj hsucc hbefore
      simp only [ServerLauncher.ensureServerRunning, h, Bool.false_eq_true, if_false,
        ServerLauncher.startServer]
      exact pollLoop_firstSuccess probe ServerLauncher.maxRetries 1 j hj hsucc hbefore
    · intro hall
      simp only [ServerLauncher.ensureServerRunning, h, Bool.false_eq_true, if_false,
        ServerLauncher.startServer]
      exact pollLoop_timeout probe ServerLauncher.maxRetries 1 hall

/-- Claim C4 witness: probes fail at indices 0 and 1 and succeed at
index 2: one spawn, success reported for the second post-spawn poll. -/
theorem claim4_witness :
    (ServerLauncher.ensureServerRunning
        (fun n => if n = 2 then .response 200 else .networkError)).spawned = 1 ∧
    (ServerLauncher.ensureServerRunning
        (fun n => if n = 2 then .response 200 else .networkError)).outcome = .ok 2 := by
  have h := (claim4_ensureRunning
    (fun n => if n = 2 then .response 200 else .networkError)).2.1 (by decide)
  refine ⟨h.1, ?_⟩
  have h2 := h.2.2.1 1 (by decide) (by decide) ?_
  · simpa using h2
  · intro i hi
    have hi0 : i = 0 := by omega
    subst hi0
    decide

-- ### Administrative restart (claim C8)

/-- Outcome of the `lsof -i :PORT -t` invocation inside
`killServerByPort` (`launcher.ts` lines 452–485): either a pid list
(possibly empty) or a command failure (non-zero exit, also the "no
process found" case of lsof). -/
inductive LsofOutcome where
  | ok (pids : List Nat)
  | cmdFailed
deriving DecidableEq, Repr

/-- Environment of one run of the restart command: the lsof outcome, which
`kill -9` invocations succeed, and whether `loadConfig()` succeeds. -/
structure RestartEnv where
  lsofOut : LsofOutcome
  killSucceeds : Nat → Bool
  configOk : Bool

/-- `killServerByPort` (`launcher.ts` lines 452–485): every failure — the
lsof command failing, an empty pid list, an individual `kill -9` failing —
is caught and only logged at debug level; the method always returns
normally.  The result records the pids a kill was attempted on and the
pids actually killed. -/
def killServerByPort (env : RestartEnv) : List Nat × List Nat :=
  match env.lsofOut with
  | .cmdFailed => ([], [])
  | .ok pids => (pids, pids.filter env.killSucceeds)

/-- The `--restart` branch of the bin entrypoint (lines 232–249 of the
`bin` source): load config, run `killServerByPort`, print the success
message and exit 0; the catch clause (exit 1 with a message) is reachable
only from `loadConfig`, since `killServerByPort` never throws.  Returns
the exit code and, when the kill step ran, its record. -/
def restartCommand (env : RestartEnv) : Nat × Option (List Nat × List Nat) :=
  if env.configOk then (0, some (killServerByPort env)) else (1, none)

/-- Claim C8 counterexample: with a loadable configuration but a failing
lsof — the command cannot determine the process owning the port — the
restart command still exits 0, refuting the claimed non-zero exit on
failure to determine or kill the owner. -/
theorem claim8_counterexample :
    ¬ ((restartCommand { lsofOut := .cmdFailed, killSucceeds := fun _ => false,
                         configOk := true }).1 ≠ 0) := by
  intro h
  exact h rfl

/-- Claim C8, amended: the restart command invokes `killServerByPort`,
which attempts a forced kill of every pid lsof lists — regardless of who
started those processes — and swallows every lsof/kill failure; the
command exits 0 whenever configuration loading succeeds, even when
determining or killing the owner failed, and exits 1 (with a
human-readable message) exactly when configuration loading fails. -/
theorem claim8_restart (env : RestartEnv) :
    (env.configOk = true →
      restartCommand env = (0, some (killServerByPort env))) ∧
    (env.configOk = false → restartCommand env = (1, none)) ∧
    (∀ pids, env.lsofOut = .ok pids →
      (killServerByPort env).1 = pids ∧
      (killServerByPort env).2 = pids.filter env.killSucceeds) ∧
    (env.lsofOut = .cmdFailed → killServerByPort env = ([], [])) := by
  refine ⟨?_, ?_, ?_, ?_⟩
  · intro h
    simp [restartCommand, h]
  · intro h
    simp [restartCommand, h]
  · intro pids h
    simp [killServerByPort, h]
  · intro h
    simp [killServerByPort, h]

/-- Claim C8 witness: lsof lists pids 5 and 7, killing 5 succeeds and 7
fails; the command exits 0 all the same. -/
theorem claim8_witness :
    restartCommand { lsofOut := .ok [5, 7], killSucceeds := fun p => p == 5,
                     configOk := true } = (0, some ([5, 7], [5])) := by
  have h := (claim8_restart { lsofOut := .ok [5, 7], killSucceeds := fun p => p == 5,
                              configOk := true }).1 rfl
  rw [h]
  rfl
